import Mathlib

/-!
Shallow embedding of the hierarchical navigation reconciliation engine from
`src/modules/@angular/router/src/router.ts` (classes `Router`, `RouterOutletMap`
and `_LoadSegments`).

The embedding keeps the source's names and control flow.  Promise chains are
sequentialized: a `.then` chain becomes ordinary sequencing, a synchronously
thrown `BaseException` becomes an `err` field that aborts the remaining
statements, and the value a guard promise eventually resolves with is recorded
directly on the component.  Side effects on the mounted-outlet hierarchy
(`outlet.load` / `outlet.unload`), deactivation-path collection and guard
invocations are recorded as an event trace, mirroring the order in which the
source performs them.

Collaborators whose sources are not part of the repository snapshot
(`segments.ts`, `lifecycle_reflector.ts`, `constants.ts`, the `RouterOutlet`
directive and the recognizer) are modelled from the specification, each marked
`Modelled from the spec:` in its doc comment.
-/

namespace NgRouter

/-- Modelled from the spec: one address token of a segment — a path piece plus
typed parameters (`UrlSegment` from the missing `segments.ts`). -/
structure UrlSegment where
  segment : String
  parameters : List (String × String)
deriving DecidableEq, Repr

/-- Modelled from the spec: a route segment's identity — its address tokens, the
slot ("outlet") name it binds to and the resource (component) type it would
instantiate (`RouteSegment` from the missing `segments.ts`).  Component types
are identified by a numeric tag. -/
structure RouteSegment where
  urlSegments : List UrlSegment
  outlet : String
  componentType : Nat
deriving DecidableEq, Repr

/-- A mounted component instance (the opaque `Object` handles the source keeps
in `components` chains).  `canDeactivate = some b` means the instance has the
optional `routerCanDeactivate` hook and its guard promise resolves with `b`
for the navigation under consideration (the hook receives the fixed pair of
previous/candidate trees, so within one navigation its resolved answer is a
single boolean); `none` means the hook is absent.  `onActivate` records
whether the instance has the optional `routerOnActivate` hook. -/
structure Comp where
  id : Nat
  canDeactivate : Option Bool
  onActivate : Bool
deriving DecidableEq, Repr

/-- Modelled from the spec: `TreeNode<RouteSegment>` from the missing
`segments.ts` — one segment plus an ordered list of children. -/
inductive TreeNode : Type where
  | mk (value : RouteSegment) (children : List TreeNode)

/-- The segment stored at a node. -/
def TreeNode.value : TreeNode → RouteSegment
  | .mk v _ => v

/-- The ordered children of a node. -/
def TreeNode.children : TreeNode → List TreeNode
  | .mk _ cs => cs

/-- Modelled from the spec: `RouteTree` from the missing `segments.ts` — a tree
is its root node. -/
structure RouteTree where
  root : TreeNode

/-- Modelled from the spec: `rootNode` from the missing `segments.ts`. -/
def rootNode (t : RouteTree) : TreeNode := t.root

/-- Modelled from the spec: the `RouterOutlet` directive (its source is not in
the snapshot), restricted to the surface `router.ts` uses: `isLoaded`,
`loadedComponent` and the nested `outletMap` (inlined here as an association
list from outlet name to outlet, mirroring the string-keyed object
`RouterOutletMap._outlets`). -/
inductive RouterOutlet : Type where
  | mk (isLoaded : Bool) (loadedComponent : Comp) (outlets : List (String × RouterOutlet))

/-- Whether a component is currently mounted in this outlet. -/
def RouterOutlet.isLoaded : RouterOutlet → Bool
  | .mk b _ _ => b

/-- The component instance mounted in this outlet (meaningless when
`isLoaded` is false, as in the source where it is `undefined`). -/
def RouterOutlet.loadedComponent : RouterOutlet → Comp
  | .mk _ c _ => c

/-- The nested registry (`outlet.outletMap._outlets`) owned by the mounted
component. -/
def RouterOutlet.outlets : RouterOutlet → List (String × RouterOutlet)
  | .mk _ _ os => os

/-- The `_outlets` object of a `RouterOutletMap`, as an association list. -/
abbrev RouterOutletMap := List (String × RouterOutlet)

/-- Lookup in a string-keyed object (`m[k]`); first binding wins, matching the
insert-with-overwrite construction below. -/
def mapLookup {α : Type} : List (String × α) → String → Option α
  | [], _ => none
  | (k, v) :: rest, key => if k = key then some v else mapLookup rest key

/-- Assignment `m[k] = v` on a string-keyed object: overwrites an existing
binding in place, otherwise appends (JS property order). -/
def mapInsert {α : Type} : List (String × α) → String → α → List (String × α)
  | [], key, v => [(key, v)]
  | (k, w) :: rest, key, v =>
    if k = key then (k, v) :: rest else (k, w) :: mapInsert rest key v

/-- `StringMapWrapper.delete m k`. -/
def mapDelete {α : Type} : List (String × α) → String → List (String × α)
  | [], _ => []
  | (k, w) :: rest, key =>
    if k = key then mapDelete rest key else (k, w) :: mapDelete rest key

/-- Modelled from the spec: `DEFAULT_OUTLET_NAME` from the missing
`constants.ts`; only its distinguishedness matters. -/
def DEFAULT_OUTLET_NAME : String := "__DEFAULT"

/-- Modelled from the spec: `equalSegments` from the missing `segments.ts` —
two segments are equal iff their address tokens, slot name and resource type
are pairwise equal; an absent previous segment is never equal. -/
def equalSegments (curr : RouteSegment) (prev : Option RouteSegment) : Bool :=
  match prev with
  | none => false
  | some p =>
    curr.urlSegments == p.urlSegments && curr.outlet == p.outlet &&
      curr.componentType == p.componentType

/-- Modelled from the spec: the capability probe `hasLifecycleHook` from the
missing `lifecycle_reflector.ts` — tests whether an instance implements an
optional hook before it is invoked. -/
def hasLifecycleHook (hook : String) (c : Comp) : Bool :=
  if hook == "routerCanDeactivate" then c.canDeactivate.isSome
  else if hook == "routerOnActivate" then c.onActivate
  else false

/-- Observable actions of one reconciliation, in the order the source performs
them. -/
inductive Ev : Type where
  /-- A deactivation path (component ids, outermost first) was pushed onto
  `this.deactivations` during the dry run. -/
  | collect (path : List Nat)
  /-- `routerCanDeactivate` was invoked on the component. -/
  | guardCall (comp : Nat)
  /-- `outlet.unload()` was performed on the outlet holding the component. -/
  | unload (comp : Nat)
  /-- `outlet.load(...)` mounted a new instance of the segment's component
  type, yielding the instance. -/
  | mount (componentType : Nat) (comp : Nat)
  /-- `routerOnActivate` was invoked on the freshly mounted instance. -/
  | activate (comp : Nat)
deriving DecidableEq, Repr

/-- Whether an event mutates the mounted hierarchy (a mount, an unmount, or
the activation hook that accompanies a mount). -/
def Ev.isMutation : Ev → Bool
  | .unload _ => true
  | .mount _ _ => true
  | .activate _ => true
  | _ => false

/-- Whether an event is a guard invocation. -/
def Ev.isGuardCall : Ev → Bool
  | .guardCall _ => true
  | _ => false

/-- Whether an event is a dry-run path collection. -/
def Ev.isCollect : Ev → Bool
  | .collect _ => true
  | _ => false

/-- One entry of `_LoadSegments.deactivations`: the chain of mounted component
handles, outermost first. -/
abbrev DeactPath := List Comp

/-- Output of one traversal fragment: the deactivation paths it pushed, the
events it performed, and the exception (if any) that aborted it. -/
structure TravOut where
  deactivations : List DeactPath
  events : List Ev
  err : Option String

/-- Sequencing of two traversal fragments: a thrown exception in the first
aborts the second (its effects never happen). -/
def TravOut.seq (a b : TravOut) : TravOut :=
  if a.err.isSome then a
  else ⟨a.deactivations ++ b.deactivations, a.events ++ b.events, b.err⟩

/-- External collaborators used by the commit pass: `instantiate` is the
resource instantiator (`outlet.load` on a component factory), and
`declaredOutlets` lists the outlet names the new instance's template registers
into the fresh `RouterOutletMap` handed to it (via `registerOutlet`). -/
structure Env where
  instantiate : RouteSegment → Comp
  declaredOutlets : RouteSegment → List String

/-- A newly registered outlet: nothing mounted yet, empty nested registry. -/
def freshOutlet : RouterOutlet := .mk false ⟨0, none, false⟩ []

/-- The `RouterOutletMap` populated by instantiating a component whose
template declares the given outlet names (repeated `registerOutlet` calls,
i.e. insert-with-overwrite). -/
def registerTemplate (names : List String) : RouterOutletMap :=
  names.foldl (fun m n => mapInsert m n freshOutlet) []

/-- `_LoadSegments.getOutlet`: resolve a segment's outlet name in the parent
registry; throws `BaseException` when absent. -/
def getOutlet (outletMap : RouterOutletMap) (segment : RouteSegment) :
    Except String RouterOutlet :=
  match mapLookup outletMap segment.outlet with
  | some o => .ok o
  | none =>
    if segment.outlet == DEFAULT_OUTLET_NAME then
      .error "Cannot find default outlet"
    else
      .error ("Cannot find the outlet " ++ segment.outlet)

mutual

/-- `_LoadSegments.unloadOutlet` on a present, structure-revealed outlet (the
`isPresent` test lives in the wrapper `unloadOutlet`): when something is
mounted, first recurse into every nested outlet (passing the *same*
`components` chain, as the source does), then either perform `outlet.unload()`
(mutation enabled) or push `components.concat([outlet.loadedComponent])` as a
deactivation path (dry run).  Returns the pushed paths and the events. -/
def unloadOutletCore (pm : Bool) : RouterOutlet → List Comp → List DeactPath × List Ev
  | .mk loaded c os, components =>
    if loaded then
      let sub := unloadOutletList pm os components
      if pm then (sub.1, sub.2 ++ [Ev.unload c.id])
      else
        (sub.1 ++ [components ++ [c]],
         sub.2 ++ [Ev.collect ((components ++ [c]).map Comp.id)])
    else ([], [])

/-- The `StringMapWrapper.forEach` loop inside `unloadOutlet`, over the nested
registry in property order. -/
def unloadOutletList (pm : Bool) : List (String × RouterOutlet) → List Comp →
    List DeactPath × List Ev
  | [], _ => ([], [])
  | p :: rest, components =>
    let a := unloadOutletCore pm p.2 components
    let b := unloadOutletList pm rest components
    (a.1 ++ b.1, a.2 ++ b.2)

end

/-- `_LoadSegments.unloadOutlet`: a blank outlet (absent from the registry) or
one with nothing mounted is skipped entirely. -/
def unloadOutlet (pm : Bool) (outlet : Option RouterOutlet) (components : List Comp) :
    List DeactPath × List Ev :=
  match outlet with
  | none => ([], [])
  | some o => unloadOutletCore pm o components

/-- The `reduce` at the top of `loadChildSegments`: index the previous node's
children by outlet name (later children overwrite earlier ones with the same
outlet, as JS property assignment does). -/
def prevChildrenOf : Option TreeNode → List (String × TreeNode)
  | none => []
  | some p => p.children.foldl (fun m c => mapInsert m c.value.outlet c) []

/-- The trailing `StringMapWrapper.forEach` of `loadChildSegments`: previous
children with no candidate counterpart are unloaded via the parent registry
(`outletMap._outlets[k]`, which may be absent). -/
def unloadLeftovers (pm : Bool) : List (String × TreeNode) → RouterOutletMap →
    List Comp → TravOut
  | [], _, _ => ⟨[], [], none⟩
  | p :: rest, outletMap, components =>
    let u := unloadOutlet pm (mapLookup outletMap p.1) components
    let r := unloadLeftovers pm rest outletMap components
    ⟨u.1 ++ r.deactivations, u.2 ++ r.events, none⟩

mutual

/-- `_LoadSegments.loadSegments`: resolve the candidate node's outlet (may
throw), reuse the mounted component when the segments compare equal, otherwise
unload the stale subtree and — only with mutation enabled — mount the new
component and recurse into the candidate children through the fresh registry
its template populated.  `loadChildrenCore` is the body of
`loadChildSegments`, iterating the candidate children against the
outlet-indexed previous children, then unloading the leftovers. -/
def loadSegments (env : Env) (pm : Bool) : TreeNode → Option TreeNode →
    RouterOutletMap → List Comp → TravOut
  | .mk curr currChildren, prevNode, parentOutletMap, components =>
    match getOutlet parentOutletMap curr with
    | .error e => ⟨[], [], some e⟩
    | .ok outlet =>
      if equalSegments curr (prevNode.map TreeNode.value) then
        loadChildrenCore env pm currChildren (prevChildrenOf prevNode) outlet.outlets
          (components ++ [outlet.loadedComponent])
      else
        let u := unloadOutlet pm (some outlet) components
        if pm then
          let loadedComponent := env.instantiate curr
          let mounted : TravOut :=
            ⟨u.1,
             u.2 ++ [Ev.mount curr.componentType loadedComponent.id] ++
               (if hasLifecycleHook "routerOnActivate" loadedComponent then
                 [Ev.activate loadedComponent.id]
               else []),
             none⟩
          mounted.seq
            (loadChildrenCore env pm currChildren (prevChildrenOf prevNode)
              (registerTemplate (env.declaredOutlets curr))
              (components ++ [loadedComponent]))
        else ⟨u.1, u.2, none⟩

/-- The child loop of `_LoadSegments.loadChildSegments`: process each candidate
child in declared order against the previous child registered under the same
outlet name (deleting it afterwards), then unload every remaining previous
child. -/
def loadChildrenCore (env : Env) (pm : Bool) : List TreeNode →
    List (String × TreeNode) → RouterOutletMap → List Comp → TravOut
  | [], prevChildren, outletMap, components =>
    unloadLeftovers pm prevChildren outletMap components
  | c :: rest, prevChildren, outletMap, components =>
    (loadSegments env pm c (mapLookup prevChildren c.value.outlet) outletMap
        components).seq
      (loadChildrenCore env pm rest (mapDelete prevChildren c.value.outlet)
        outletMap components)

end

/-- `_LoadSegments.loadChildSegments`. -/
def loadChildSegments (env : Env) (pm : Bool) (currNode : TreeNode)
    (prevNode : Option TreeNode) (outletMap : RouterOutletMap)
    (components : List Comp) : TravOut :=
  loadChildrenCore env pm currNode.children (prevChildrenOf prevNode) outletMap
    components

/-- `_LoadSegments.checkCanDeactivatePath`: walk the path in reverse
(innermost mounted component first), chaining `then` continuations.  A step
with the `routerCanDeactivate` hook replaces the running value with its own
resolved answer and records the invocation; a step without the hook passes the
running value through.  Returns the chain's final resolved value and the guard
invocations in evaluation order. -/
def checkCanDeactivatePath (path : DeactPath) : Bool × List Ev :=
  path.reverse.foldl
    (fun acc p =>
      if hasLifecycleHook "routerCanDeactivate" p then
        (p.canDeactivate.getD true, acc.2 ++ [Ev.guardCall p.id])
      else acc)
    (true, [])

/-- Result of `_LoadSegments.load`: the boolean the promise resolves with, the
full event trace, the collected deactivation paths, and the exception (if any)
that rejected it. -/
structure LoadOut where
  res : Bool
  events : List Ev
  deactivations : List DeactPath
  err : Option String

/-- `_LoadSegments.canDeactivate`: run the traversal with mutation disabled to
collect deactivation paths, then resolve every path's guard chain
(`PromiseWrapper.all`) and succeed iff every chain resolved true (the
`values.filter(v => v).length === values.length` test).  A synchronous throw
during the dry run escapes before any guard is evaluated. -/
def canDeactivate (env : Env) (currRoot : TreeNode) (prevRoot : Option TreeNode)
    (outletMap : RouterOutletMap) (rootComponent : Comp) : LoadOut :=
  let dry := loadChildSegments env false currRoot prevRoot outletMap [rootComponent]
  match dry.err with
  | some e => ⟨false, dry.events, dry.deactivations, some e⟩
  | none =>
    let checks := dry.deactivations.map checkCanDeactivatePath
    let values := checks.map (fun c => c.1)
    let res := (values.filter (fun v => v)).length == values.length
    ⟨res, dry.events ++ (checks.map (fun c => c.2)).flatten, dry.deactivations, none⟩

/-- `_LoadSegments.load`: deactivation check first; only when it resolves true
is the traversal re-run with mutation enabled.  The promise resolves with the
check's boolean; an exception from either pass rejects it. -/
def load (env : Env) (currTree : RouteTree) (prevTree : Option RouteTree)
    (parentOutletMap : RouterOutletMap) (rootComponent : Comp) : LoadOut :=
  let prevRoot := prevTree.map rootNode
  let currRoot := rootNode currTree
  let cd := canDeactivate env currRoot prevRoot parentOutletMap rootComponent
  match cd.err with
  | some _ => cd
  | none =>
    if cd.res then
      let commit := loadChildSegments env true currRoot prevRoot parentOutletMap
        [rootComponent]
      ⟨cd.res, cd.events ++ commit.events, cd.deactivations ++ commit.deactivations,
       commit.err⟩
    else cd

/-- An external address (`UrlTree`), identified opaquely; the reconciler never
inspects it. -/
structure UrlTree where
  id : Nat
deriving DecidableEq, Repr

/-- The recognizer collaborator: `recognize` turns an address into a candidate
route tree or fails with a "no match" error (a rejected promise). -/
structure RouterEnv where
  recognize : UrlTree → Except String RouteTree

/-- The `Router` fields `_navigate` touches: the accepted route tree
(`_prevTree`, read through the `routeTree` accessor) and the current url tree
(`_urlTree`, read through the `urlTree` accessor, unset before the first
navigation). -/
structure RouterState where
  prevTree : RouteTree
  urlTree : Option UrlTree

/-- How the promise returned by `Router._navigate` settles.  `resolved`
carries no value: the source's promise is a `Promise<void>` whose final `then`
returns nothing. -/
inductive NavResult : Type where
  | rejected (msg : String)
  | resolved
deriving DecidableEq, Repr

/-- Outcome of one `_navigate` call: how its promise settles, the router state
afterwards, the reconciliation events, and whether `_changes` emitted. -/
structure NavOut where
  result : NavResult
  state : RouterState
  events : List Ev
  emitted : Bool

/-- `Router._navigate`: store the candidate url tree (before recognition!),
recognize it, reconcile via `_LoadSegments.load`, and on an `updated` result
swap the accepted tree and emit a change notification. -/
def navigate (renv : RouterEnv) (env : Env) (outletMap : RouterOutletMap)
    (rootComponent : Comp) (st : RouterState) (url : UrlTree) : NavOut :=
  let st1 : RouterState := { st with urlTree := some url }
  match renv.recognize url with
  | .error e => ⟨.rejected e, st1, [], false⟩
  | .ok currTree =>
    let out := load env currTree (some st1.prevTree) outletMap rootComponent
    match out.err with
    | some e => ⟨.rejected e, st1, out.events, false⟩
    | none =>
      if out.res then
        ⟨.resolved, { st1 with prevTree := currTree }, out.events, true⟩
      else ⟨.resolved, st1, out.events, false⟩

/-! ### Auxiliary definitions for the statements -/

mutual

/-- The mounted components of the subtree rooted at an outlet, in the order
`unloadOutlet` visits them (nested outlets first, the outlet's own component
last); an unloaded outlet contributes nothing. -/
def deactivatedComps : RouterOutlet → List Comp
  | .mk loaded c os => if loaded then deactivatedCompsList os ++ [c] else []

/-- `deactivatedComps` over a registry, in property order. -/
def deactivatedCompsList : List (String × RouterOutlet) → List Comp
  | [] => []
  | p :: rest => deactivatedComps p.2 ++ deactivatedCompsList rest

end

/-- Whether the children of a node bind pairwise distinct outlet names. -/
def distinctOutlets : List TreeNode → Bool
  | [] => true
  | c :: rest =>
    rest.all (fun d => d.value.outlet != c.value.outlet) && distinctOutlets rest

mutual

/-- The structural-congruence invariant between an accepted tree and the
registry hierarchy (spec §3): every child is registered under its outlet name,
loaded, and recursively congruent with that outlet's nested registry; sibling
outlet names are distinct. -/
def congruentB : TreeNode → RouterOutletMap → Bool
  | .mk _ cs, m => distinctOutlets cs && congruentChildren cs m

/-- Child-list part of `congruentB`. -/
def congruentChildren : List TreeNode → RouterOutletMap → Bool
  | [], _ => true
  | c :: rest, m =>
    (match mapLookup m c.value.outlet with
     | some o => o.isLoaded && congruentB c o.outlets
     | none => false) &&
      congruentChildren rest m

end

/-- The outlet-indexed children map the `reduce` in `loadChildSegments`
builds. -/
def buildPrev (cs : List TreeNode) : List (String × TreeNode) :=
  cs.foldl (fun m c => mapInsert m c.value.outlet c) []

/-! ### Association-list and sequencing lemmas -/

theorem mapLookup_insert_self {α : Type} (m : List (String × α)) (k : String) (v : α) :
    mapLookup (mapInsert m k v) k = some v := by
  induction m with
  | nil => simp [mapInsert, mapLookup]
  | cons p rest ih =>
    obtain ⟨a, w⟩ := p
    by_cases h : a = k
    · simp [mapInsert, mapLookup, h]
    · simp [mapInsert, mapLookup, h, ih]

theorem mapLookup_insert_other {α : Type} (m : List (String × α)) (k k' : String) (v : α)
    (h : k ≠ k') : mapLookup (mapInsert m k v) k' = mapLookup m k' := by
  induction m with
  | nil => simp [mapInsert, mapLookup, h]
  | cons p rest ih =>
    obtain ⟨a, w⟩ := p
    by_cases ha : a = k
    · subst ha
      simp [mapInsert, mapLookup, h]
    · have h2 : k' ≠ k := fun e => h e.symm
      by_cases hk : a = k'
      · simp [mapInsert, mapLookup, ha, hk, h2]
      · simp [mapInsert, mapLookup, ha, hk, ih]

theorem mapDelete_insert_other {α : Type} (m : List (String × α)) (k k' : String) (v : α)
    (h : k ≠ k') :
    mapDelete (mapInsert m k v) k' = mapInsert (mapDelete m k') k v := by
  induction m with
  | nil => simp [mapInsert, mapDelete, h]
  | cons p rest ih =>
    obtain ⟨a, w⟩ := p
    by_cases ha : a = k
    · subst ha
      simp [mapInsert, mapDelete, h]
    · have h2 : k' ≠ k := fun e => h e.symm
      by_cases hk : a = k'
      · simp [mapInsert, mapDelete, ha, hk, h2, ih]
      · simp [mapInsert, mapDelete, ha, hk, ih]

theorem buildPrev_lookup_notin (cs : List TreeNode) (acc : List (String × TreeNode))
    (k : String) (h : ∀ c ∈ cs, c.value.outlet ≠ k) :
    mapLookup (cs.foldl (fun m c => mapInsert m c.value.outlet c) acc) k =
      mapLookup acc k := by
  induction cs generalizing acc with
  | nil => rfl
  | cons c rest ih =>
    simp only [List.foldl_cons]
    rw [ih _ (fun d hd => h d (List.mem_cons_of_mem c hd))]
    exact mapLookup_insert_other acc c.value.outlet k c (h c (List.mem_cons_self c rest))

theorem buildPrev_delete_notin (cs : List TreeNode) (acc : List (String × TreeNode))
    (k : String) (h : ∀ c ∈ cs, c.value.outlet ≠ k) :
    mapDelete (cs.foldl (fun m c => mapInsert m c.value.outlet c) acc) k =
      cs.foldl (fun m c => mapInsert m c.value.outlet c) (mapDelete acc k) := by
  induction cs generalizing acc with
  | nil => rfl
  | cons c rest ih =>
    simp only [List.foldl_cons]
    rw [ih (mapInsert acc c.value.outlet c) (fun d hd => h d (List.mem_cons_of_mem c hd)),
      mapDelete_insert_other acc c.value.outlet k c (h c (List.mem_cons_self c rest))]

theorem buildPrev_cons_lookup (c : TreeNode) (rest : List TreeNode)
    (h : ∀ d ∈ rest, d.value.outlet ≠ c.value.outlet) :
    mapLookup (buildPrev (c :: rest)) c.value.outlet = some c := by
  simp only [buildPrev, List.foldl_cons]
  rw [buildPrev_lookup_notin rest _ _ h]
  simp [mapInsert, mapLookup]

theorem buildPrev_cons_delete (c : TreeNode) (rest : List TreeNode)
    (h : ∀ d ∈ rest, d.value.outlet ≠ c.value.outlet) :
    mapDelete (buildPrev (c :: rest)) c.value.outlet = buildPrev rest := by
  simp only [buildPrev, List.foldl_cons]
  rw [buildPrev_delete_notin rest _ _ h]
  simp [mapInsert, mapDelete]

theorem prevChildrenOf_some (v : RouteSegment) (cs : List TreeNode) :
    prevChildrenOf (some (.mk v cs)) = buildPrev cs := rfl

theorem TravOut.seq_emptyLeft (b : TravOut) : TravOut.seq ⟨[], [], none⟩ b = b := by
  simp [TravOut.seq]

theorem TravOut.seq_events (a b : TravOut) (e : Ev) (h : e ∈ (a.seq b).events) :
    e ∈ a.events ∨ e ∈ b.events := by
  by_cases ha : a.err.isSome
  · rw [TravOut.seq, if_pos ha] at h; exact Or.inl h
  · rw [TravOut.seq, if_neg ha] at h
    simpa using List.mem_append.mp h

theorem TravOut.seq_err (a b : TravOut) :
    (a.seq b).err.isSome = (a.err.isSome || b.err.isSome) := by
  by_cases ha : a.err.isSome
  · rw [TravOut.seq, if_pos ha, ha]; rfl
  · rw [TravOut.seq, if_neg ha]
    simp only [Bool.not_eq_true] at ha
    simp [ha]

theorem equalSegments_refl (a : RouteSegment) : equalSegments a (some a) = true := by
  simp [equalSegments]

/-! ### Guard-chain characterizations -/

theorem checkCanDeactivatePath_nil : checkCanDeactivatePath [] = (true, []) := rfl

theorem checkCanDeactivatePath_cons (c : Comp) (rest : DeactPath) :
    checkCanDeactivatePath (c :: rest) =
      (if hasLifecycleHook "routerCanDeactivate" c then
        (c.canDeactivate.getD true, (checkCanDeactivatePath rest).2 ++ [Ev.guardCall c.id])
      else checkCanDeactivatePath rest) := by
  simp only [checkCanDeactivatePath, List.reverse_cons, List.foldl_append, List.foldl_cons,
    List.foldl_nil]

theorem checkCanDeactivatePath_value (path : DeactPath) :
    (checkCanDeactivatePath path).1 =
      (match path.find? (hasLifecycleHook "routerCanDeactivate") with
       | some c => c.canDeactivate.getD true
       | none => true) := by
  induction path with
  | nil => rfl
  | cons c rest ih =>
    rw [checkCanDeactivatePath_cons]
    by_cases h : hasLifecycleHook "routerCanDeactivate" c = true
    · simp [List.find?_cons, h]
    · rw [Bool.not_eq_true] at h
      simp [List.find?_cons, h, ih]

theorem checkCanDeactivatePath_events (path : DeactPath) :
    (checkCanDeactivatePath path).2 =
      (path.reverse.filter (hasLifecycleHook "routerCanDeactivate")).map
        (fun c => Ev.guardCall c.id) := by
  induction path with
  | nil => rfl
  | cons c rest ih =>
    rw [checkCanDeactivatePath_cons]
    by_cases h : hasLifecycleHook "routerCanDeactivate" c = true
    · simp [List.filter_append, h, ih]
    · rw [Bool.not_eq_true] at h
      simp [List.filter_append, h, ih]

/-! ### `unloadOutlet` characterizations -/

mutual

theorem unloadOutletCore_false_eq : ∀ (o : RouterOutlet) (comps : List Comp),
    unloadOutletCore false o comps =
      ((deactivatedComps o).map (fun c => comps ++ [c]),
       (deactivatedComps o).map (fun c => Ev.collect ((comps ++ [c]).map Comp.id)))
  | .mk loaded c os, comps => by
    rw [unloadOutletCore, deactivatedComps]
    by_cases h : loaded = true
    · have hl := unloadOutletList_false_eq os comps
      simp [h, hl]
    · rw [Bool.not_eq_true] at h
      simp [h]

theorem unloadOutletList_false_eq : ∀ (os : List (String × RouterOutlet)) (comps : List Comp),
    unloadOutletList false os comps =
      ((deactivatedCompsList os).map (fun c => comps ++ [c]),
       (deactivatedCompsList os).map (fun c => Ev.collect ((comps ++ [c]).map Comp.id)))
  | [], _ => rfl
  | p :: rest, comps => by
    rw [unloadOutletList, deactivatedCompsList]
    have h1 := unloadOutletCore_false_eq p.2 comps
    have h2 := unloadOutletList_false_eq rest comps
    simp [h1, h2]

end

mutual

theorem unloadOutletCore_true_eq : ∀ (o : RouterOutlet) (comps : List Comp),
    unloadOutletCore true o comps =
      ([], (deactivatedComps o).map (fun c => Ev.unload c.id))
  | .mk loaded c os, comps => by
    rw [unloadOutletCore, deactivatedComps]
    by_cases h : loaded = true
    · have hl := unloadOutletList_true_eq os comps
      simp [h, hl]
    · rw [Bool.not_eq_true] at h
      simp [h]

theorem unloadOutletList_true_eq : ∀ (os : List (String × RouterOutlet)) (comps : List Comp),
    unloadOutletList true os comps =
      ([], (deactivatedCompsList os).map (fun c => Ev.unload c.id))
  | [], _ => rfl
  | p :: rest, comps => by
    rw [unloadOutletList, deactivatedCompsList]
    have h1 := unloadOutletCore_true_eq p.2 comps
    have h2 := unloadOutletList_true_eq rest comps
    simp [h1, h2]

end

theorem unloadOutlet_false_events (o : Option RouterOutlet) (comps : List Comp) (e : Ev)
    (h : e ∈ (unloadOutlet false o comps).2) : e.isCollect = true := by
  match o with
  | none => simp [unloadOutlet] at h
  | some o =>
    rw [unloadOutlet, unloadOutletCore_false_eq] at h
    obtain ⟨c, _, rfl⟩ := List.mem_map.mp h
    rfl

theorem unloadOutlet_true_events (o : Option RouterOutlet) (comps : List Comp) (e : Ev)
    (h : e ∈ (unloadOutlet true o comps).2) : e.isMutation = true := by
  match o with
  | none => simp [unloadOutlet] at h
  | some o =>
    rw [unloadOutlet, unloadOutletCore_true_eq] at h
    obtain ⟨c, _, rfl⟩ := List.mem_map.mp h
    rfl

/-! ### Event classification of the two traversal passes -/

theorem unloadLeftovers_err (pm : Bool) :
    ∀ (pc : List (String × TreeNode)) (m : RouterOutletMap) (comps : List Comp),
    (unloadLeftovers pm pc m comps).err = none
  | [], _, _ => rfl
  | _ :: rest, m, comps => by
    rw [unloadLeftovers]

theorem unloadLeftovers_false_events :
    ∀ (pc : List (String × TreeNode)) (m : RouterOutletMap) (comps : List Comp) (e : Ev),
    e ∈ (unloadLeftovers false pc m comps).events → e.isCollect = true
  | [], _, _, e, h => by simp [unloadLeftovers] at h
  | p :: rest, m, comps, e, h => by
    simp only [unloadLeftovers] at h
    rcases List.mem_append.mp h with h | h
    · exact unloadOutlet_false_events _ _ _ h
    · exact unloadLeftovers_false_events rest m comps e h

theorem unloadLeftovers_true_events :
    ∀ (pc : List (String × TreeNode)) (m : RouterOutletMap) (comps : List Comp) (e : Ev),
    e ∈ (unloadLeftovers true pc m comps).events → e.isMutation = true
  | [], _, _, e, h => by simp [unloadLeftovers] at h
  | p :: rest, m, comps, e, h => by
    simp only [unloadLeftovers] at h
    rcases List.mem_append.mp h with h | h
    · exact unloadOutlet_true_events _ _ _ h
    · exact unloadLeftovers_true_events rest m comps e h

mutual

theorem loadSegments_false_events (env : Env) :
    ∀ (c : TreeNode) (prev : Option TreeNode) (m : RouterOutletMap) (comps : List Comp)
      (e : Ev), e ∈ (loadSegments env false c prev m comps).events → e.isCollect = true
  | .mk v cs, prev, m, comps, e, h => by
    rw [loadSegments] at h
    split at h
    · simp at h
    · split at h
      · exact loadChildrenCore_false_events env cs _ _ _ e h
      · simp only [Bool.false_eq_true, if_false] at h
        exact unloadOutlet_false_events _ comps e h

theorem loadChildrenCore_false_events (env : Env) :
    ∀ (cs : List TreeNode) (pc : List (String × TreeNode)) (m : RouterOutletMap)
      (comps : List Comp) (e : Ev),
    e ∈ (loadChildrenCore env false cs pc m comps).events → e.isCollect = true
  | [], pc, m, comps, e, h => by
    rw [loadChildrenCore] at h
    exact unloadLeftovers_false_events pc m comps e h
  | c :: rest, pc, m, comps, e, h => by
    rw [loadChildrenCore] at h
    rcases TravOut.seq_events _ _ _ h with h | h
    · exact loadSegments_false_events env c _ m comps e h
    · exact loadChildrenCore_false_events env rest _ m comps e h

end

mutual

theorem loadSegments_true_events (env : Env) :
    ∀ (c : TreeNode) (prev : Option TreeNode) (m : RouterOutletMap) (comps : List Comp)
      (e : Ev), e ∈ (loadSegments env true c prev m comps).events → e.isMutation = true
  | .mk v cs, prev, m, comps, e, h => by
    rw [loadSegments] at h
    split at h
    · simp at h
    · split at h
      · exact loadChildrenCore_true_events env cs _ _ _ e h
      · rw [if_pos rfl] at h
        dsimp only at h
        rcases TravOut.seq_events _ _ _ h with h | h
        · simp only [List.append_assoc] at h
          rcases List.mem_append.mp h with h | h
          · exact unloadOutlet_true_events _ comps e h
          · rcases List.mem_append.mp h with h | h
            · rcases List.mem_singleton.mp h with rfl
              rfl
            · split at h
              · rcases List.mem_singleton.mp h with rfl
                rfl
              · simp at h
        · exact loadChildrenCore_true_events env cs _ _ _ e h

theorem loadChildrenCore_true_events (env : Env) :
    ∀ (cs : List TreeNode) (pc : List (String × TreeNode)) (m : RouterOutletMap)
      (comps : List Comp) (e : Ev),
    e ∈ (loadChildrenCore env true cs pc m comps).events → e.isMutation = true
  | [], pc, m, comps, e, h => by
    rw [loadChildrenCore] at h
    exact unloadLeftovers_true_events pc m comps e h
  | c :: rest, pc, m, comps, e, h => by
    rw [loadChildrenCore] at h
    rcases TravOut.seq_events _ _ _ h with h | h
    · exact loadSegments_true_events env c _ m comps e h
    · exact loadChildrenCore_true_events env rest _ m comps e h

end

theorem loadChildSegments_false_events (env : Env) (cn : TreeNode) (prev : Option TreeNode)
    (m : RouterOutletMap) (comps : List Comp) (e : Ev)
    (h : e ∈ (loadChildSegments env false cn prev m comps).events) : e.isCollect = true := by
  rw [loadChildSegments] at h
  exact loadChildrenCore_false_events env cn.children _ m comps e h

theorem loadChildSegments_true_events (env : Env) (cn : TreeNode) (prev : Option TreeNode)
    (m : RouterOutletMap) (comps : List Comp) (e : Ev)
    (h : e ∈ (loadChildSegments env true cn prev m comps).events) : e.isMutation = true := by
  rw [loadChildSegments] at h
  exact loadChildrenCore_true_events env cn.children _ m comps e h

theorem Ev.notMutation_of_isCollect (e : Ev) (h : e.isCollect = true) : e.isMutation = false := by
  cases e <;> simp_all [Ev.isCollect, Ev.isMutation]

theorem Ev.notMutation_of_isGuardCall (e : Ev) (h : e.isGuardCall = true) :
    e.isMutation = false := by
  cases e <;> simp_all [Ev.isGuardCall, Ev.isMutation]

theorem Ev.not_guard_collect_of_isMutation (e : Ev) (h : e.isMutation = true) :
    e.isGuardCall = false ∧ e.isCollect = false := by
  cases e <;> simp_all [Ev.isGuardCall, Ev.isCollect, Ev.isMutation]

/-! ### Shape lemmas for `canDeactivate` and `load` -/

theorem canDeactivate_events_classified (env : Env) (cr : TreeNode) (pr : Option TreeNode)
    (m : RouterOutletMap) (rc : Comp) (e : Ev)
    (h : e ∈ (canDeactivate env cr pr m rc).events) :
    e.isCollect = true ∨ e.isGuardCall = true := by
  rw [canDeactivate] at h
  split at h
  · exact Or.inl (loadChildSegments_false_events env cr pr m [rc] e h)
  · rcases List.mem_append.mp h with h | h
    · exact Or.inl (loadChildSegments_false_events env cr pr m [rc] e h)
    · right
      rw [List.mem_flatten] at h
      obtain ⟨l, hl, hel⟩ := h
      obtain ⟨pr2, _, rfl⟩ := List.mem_map.mp hl
      obtain ⟨p, _, rfl⟩ := List.mem_map.mp (by assumption : pr2 ∈ _)
      rw [checkCanDeactivatePath_events] at hel
      obtain ⟨c, _, rfl⟩ := List.mem_map.mp hel
      rfl

theorem canDeactivate_err_of_dry (env : Env) (cr : TreeNode) (pr : Option TreeNode)
    (m : RouterOutletMap) (rc : Comp) (e : String)
    (h : (loadChildSegments env false cr pr m [rc]).err = some e) :
    (canDeactivate env cr pr m rc).err = some e := by
  rw [canDeactivate]
  simp only [h]

theorem load_eq_of_err (env : Env) (ct : RouteTree) (pt : Option RouteTree)
    (m : RouterOutletMap) (rc : Comp) (e : String)
    (h : (canDeactivate env (rootNode ct) (pt.map rootNode) m rc).err = some e) :
    load env ct pt m rc = canDeactivate env (rootNode ct) (pt.map rootNode) m rc := by
  rw [load]
  simp only [h]

theorem load_eq_of_res_false (env : Env) (ct : RouteTree) (pt : Option RouteTree)
    (m : RouterOutletMap) (rc : Comp)
    (h1 : (canDeactivate env (rootNode ct) (pt.map rootNode) m rc).err = none)
    (h2 : (canDeactivate env (rootNode ct) (pt.map rootNode) m rc).res = false) :
    load env ct pt m rc = canDeactivate env (rootNode ct) (pt.map rootNode) m rc := by
  rw [load]
  simp only [h1, h2, Bool.false_eq_true, if_false]

theorem load_eq_of_res_true (env : Env) (ct : RouteTree) (pt : Option RouteTree)
    (m : RouterOutletMap) (rc : Comp)
    (h1 : (canDeactivate env (rootNode ct) (pt.map rootNode) m rc).err = none)
    (h2 : (canDeactivate env (rootNode ct) (pt.map rootNode) m rc).res = true) :
    load env ct pt m rc =
      ⟨true,
       (canDeactivate env (rootNode ct) (pt.map rootNode) m rc).events ++
         (loadChildSegments env true (rootNode ct) (pt.map rootNode) m [rc]).events,
       (canDeactivate env (rootNode ct) (pt.map rootNode) m rc).deactivations ++
         (loadChildSegments env true (rootNode ct) (pt.map rootNode) m [rc]).deactivations,
       (loadChildSegments env true (rootNode ct) (pt.map rootNode) m [rc]).err⟩ := by
  rw [load]
  simp only [h1, h2, if_true]

theorem load_err_none_cd (env : Env) (ct : RouteTree) (pt : Option RouteTree)
    (m : RouterOutletMap) (rc : Comp) (h : (load env ct pt m rc).err = none) :
    (canDeactivate env (rootNode ct) (pt.map rootNode) m rc).err = none := by
  rcases hcd : (canDeactivate env (rootNode ct) (pt.map rootNode) m rc).err with _ | e
  · rfl
  · rw [load_eq_of_err env ct pt m rc e hcd, hcd] at h
    exact Option.noConfusion h

/-! ### Error propagation for a missing outlet (C9) -/

theorem loadSegments_missing_err (env : Env) (c : TreeNode) (prev : Option TreeNode)
    (m : RouterOutletMap) (comps : List Comp)
    (hm : mapLookup m c.value.outlet = none) :
    (loadSegments env false c prev m comps).err.isSome = true := by
  obtain ⟨v, cs⟩ := c
  simp only [TreeNode.value] at hm
  rw [loadSegments, getOutlet]
  simp only [hm]
  split
  · rfl
  · rename_i outlet heq
    split at heq <;> exact Except.noConfusion heq

theorem loadChildrenCore_missing_err (env : Env) :
    ∀ (cs : List TreeNode) (pc : List (String × TreeNode)) (m : RouterOutletMap)
      (comps : List Comp) (c : TreeNode), c ∈ cs → mapLookup m c.value.outlet = none →
    (loadChildrenCore env false cs pc m comps).err.isSome = true
  | [], _, _, _, c, hc, _ => absurd hc (List.not_mem_nil c)
  | d :: rest, pc, m, comps, c, hc, hm => by
    rw [loadChildrenCore, TravOut.seq_err]
    rcases List.mem_cons.mp hc with rfl | h
    · rw [loadSegments_missing_err env c _ m comps hm]
      rfl
    · rw [loadChildrenCore_missing_err env rest _ m comps c h hm]
      simp

/-! ### Congruent re-navigation is a no-op traversal (C3) -/

mutual

theorem loadSegments_congr (env : Env) (pm : Bool) :
    ∀ (c : TreeNode) (m : RouterOutletMap) (comps : List Comp) (o : RouterOutlet),
    mapLookup m c.value.outlet = some o → o.isLoaded = true →
    congruentB c o.outlets = true →
    loadSegments env pm c (some c) m comps = ⟨[], [], none⟩
  | .mk v cs, m, comps, o, hL, hLoaded, hCong => by
    simp only [TreeNode.value] at hL
    have hG : getOutlet m v = .ok o := by
      rw [getOutlet, hL]
    rw [loadSegments]
    simp only [hG, Option.map, TreeNode.value, equalSegments_refl, eq_self_iff_true, if_true]
    rw [prevChildrenOf_some]
    rw [congruentB, Bool.and_eq_true] at hCong
    exact loadChildrenCore_congr env pm cs o.outlets (comps ++ [o.loadedComponent])
      hCong.1 hCong.2

theorem loadChildrenCore_congr (env : Env) (pm : Bool) :
    ∀ (cs : List TreeNode) (m : RouterOutletMap) (comps : List Comp),
    distinctOutlets cs = true → congruentChildren cs m = true →
    loadChildrenCore env pm cs (buildPrev cs) m comps = ⟨[], [], none⟩
  | [], _, _, _, _ => rfl
  | c :: rest, m, comps, hdist, hcc => by
    rw [distinctOutlets, Bool.and_eq_true] at hdist
    have hne : ∀ d ∈ rest, d.value.outlet ≠ c.value.outlet := by
      intro d hd
      have := (List.all_eq_true.mp hdist.1) d hd
      simpa using this
    rw [congruentChildren, Bool.and_eq_true] at hcc
    obtain ⟨h1, hcc2⟩ := hcc
    rcases hO : mapLookup m c.value.outlet with _ | o
    · rw [hO] at h1
      exact Bool.noConfusion h1
    · rw [hO] at h1
      rw [Bool.and_eq_true] at h1
      rw [loadChildrenCore]
      rw [buildPrev_cons_lookup c rest hne]
      rw [loadSegments_congr env pm c m comps o hO h1.1 h1.2]
      rw [TravOut.seq_emptyLeft]
      rw [buildPrev_cons_delete c rest hne]
      exact loadChildrenCore_congr env pm rest m comps hdist.2 hcc2

end

theorem loadChildSegments_congr (env : Env) (pm : Bool) (root : TreeNode)
    (m : RouterOutletMap) (comps : List Comp) (h : congruentB root m = true) :
    loadChildSegments env pm root (some root) m comps = ⟨[], [], none⟩ := by
  obtain ⟨v, cs⟩ := root
  rw [loadChildSegments]
  simp only [TreeNode.children]
  rw [prevChildrenOf_some]
  rw [congruentB, Bool.and_eq_true] at h
  exact loadChildrenCore_congr env pm cs m comps h.1 h.2

theorem canDeactivate_congr (env : Env) (root : TreeNode) (m : RouterOutletMap) (rc : Comp)
    (h : congruentB root m = true) :
    canDeactivate env root (some root) m rc = ⟨true, [], [], none⟩ := by
  rw [canDeactivate, loadChildSegments_congr env false root m [rc] h]
  rfl

theorem load_congr (env : Env) (t : RouteTree) (m : RouterOutletMap) (rc : Comp)
    (h : congruentB t.root m = true) :
    load env t (some t) m rc = ⟨true, [], [], none⟩ := by
  obtain ⟨root⟩ := t
  have h1 : congruentB root m = true := h
  rw [load]
  simp only [Option.map, rootNode]
  rw [canDeactivate_congr env root m rc h1,
    loadChildSegments_congr env true root m [rc] h1]
  rfl

/-! ### Shape lemmas for `navigate` -/

theorem navigate_eq_err (renv : RouterEnv) (env : Env) (m : RouterOutletMap) (rc : Comp)
    (st : RouterState) (url : UrlTree) (msg : String)
    (hrec : renv.recognize url = .error msg) :
    navigate renv env m rc st url = ⟨.rejected msg, ⟨st.prevTree, some url⟩, [], false⟩ := by
  rw [navigate]
  simp only [hrec]

theorem navigate_eq_ok (renv : RouterEnv) (env : Env) (m : RouterOutletMap) (rc : Comp)
    (st : RouterState) (url : UrlTree) (ct : RouteTree)
    (hrec : renv.recognize url = .ok ct) :
    navigate renv env m rc st url =
      (match (load env ct (some st.prevTree) m rc).err with
       | some e =>
         ⟨.rejected e, ⟨st.prevTree, some url⟩,
          (load env ct (some st.prevTree) m rc).events, false⟩
       | none =>
         if (load env ct (some st.prevTree) m rc).res then
           ⟨.resolved, ⟨ct, some url⟩, (load env ct (some st.prevTree) m rc).events, true⟩
         else
           ⟨.resolved, ⟨st.prevTree, some url⟩,
            (load env ct (some st.prevTree) m rc).events, false⟩) := by
  rw [navigate]
  simp only [hrec]

theorem load_not_committed_events (env : Env) (ct : RouteTree) (pt : Option RouteTree)
    (m : RouterOutletMap) (rc : Comp)
    (herr : (load env ct pt m rc).err = none)
    (hres : (load env ct pt m rc).res = false) (e : Ev)
    (he : e ∈ (load env ct pt m rc).events) : e.isMutation = false := by
  have hcd := load_err_none_cd env ct pt m rc herr
  rcases hcr : (canDeactivate env (rootNode ct) (pt.map rootNode) m rc).res with _ | _
  · rw [load_eq_of_res_false env ct pt m rc hcd hcr] at he
    rcases canDeactivate_events_classified env _ _ m rc e he with h | h
    · exact Ev.notMutation_of_isCollect e h
    · exact Ev.notMutation_of_isGuardCall e h
  · rw [load_eq_of_res_true env ct pt m rc hcd hcr] at hres
    exact absurd hres (by simp)

/-! ### Example fixtures for concrete evaluations -/

/-- Root segment of the example trees (bound to the default outlet). -/
def exSegRoot : RouteSegment := ⟨[⟨"", []⟩], DEFAULT_OUTLET_NAME, 0⟩

/-- A child segment mounted in outlet "o". -/
def exSegX : RouteSegment := ⟨[⟨"x", []⟩], "o", 1⟩

/-- The component mounted for `exSegX`; its guard resolves false. -/
def exXVeto : Comp := ⟨1, some false, false⟩

/-- Registry with one loaded outlet "o" holding `exXVeto`. -/
def exOutletMap : RouterOutletMap := [("o", .mk true exXVeto [])]

/-- Accepted tree: root with the child in outlet "o". -/
def exPrevTree : RouteTree := ⟨.mk exSegRoot [.mk exSegX []]⟩

/-- Candidate tree: bare root — the child is slated for removal. -/
def exCurrTree : RouteTree := ⟨.mk exSegRoot []⟩

/-- Instantiator assigning fresh component ids, templates declaring no
outlets. -/
def exEnv : Env := ⟨fun s => ⟨100 + s.componentType, none, false⟩, fun _ => []⟩

/-- Root component whose guard resolves true (it overrides inner vetoes). -/
def exRootTrue : Comp := ⟨0, some true, false⟩

/-- Root component without the deactivation guard hook. -/
def exRootPlain : Comp := ⟨0, none, false⟩

/-- Router state before the example navigations. -/
def exState : RouterState := ⟨exPrevTree, some ⟨0⟩⟩

/-- The url navigated to in the examples. -/
def exUrl : UrlTree := ⟨1⟩

/-- Recognizer resolving every address to `exCurrTree`. -/
def exRecogOk : RouterEnv := ⟨fun _ => Except.ok exCurrTree⟩

/-- Recognizer resolving every address to the accepted tree itself. -/
def exRecogSame : RouterEnv := ⟨fun _ => Except.ok exPrevTree⟩

/-- Recognizer failing with a "no match" error. -/
def exRecogFail : RouterEnv := ⟨fun _ => Except.error "no match"⟩

/-- A candidate segment naming an outlet that is not registered. -/
def exSegY : RouteSegment := ⟨[⟨"y", []⟩], "missing", 2⟩

/-- Candidate tree containing the unresolvable outlet name. -/
def exCurrBad : RouteTree := ⟨.mk exSegRoot [.mk exSegY []]⟩

/-- Recognizer resolving every address to `exCurrBad`. -/
def exRecogBad : RouterEnv := ⟨fun _ => Except.ok exCurrBad⟩

/-! ### Claims -/

/-- C1 counterexample: in the deactivation path `[outer, inner]` the inner
guard is invoked and returns false, yet the chain's final resolved value is
true, because the outer step's own guard runs afterwards and replaces the
running value.  This refutes the claim that once any step returns false the
chain's final value is false regardless of the remaining outer steps. -/
theorem C1_counterexample :
    ((⟨1, some false, false⟩ : Comp) ∈
      ([⟨0, some true, false⟩, ⟨1, some false, false⟩] : DeactPath)) ∧
    (⟨1, some false, false⟩ : Comp).canDeactivate = some false ∧
    Ev.guardCall 1 ∈
      (checkCanDeactivatePath [⟨0, some true, false⟩, ⟨1, some false, false⟩]).2 ∧
    (checkCanDeactivatePath [⟨0, some true, false⟩, ⟨1, some false, false⟩]).1 = true := by
  decide

/-- C1 (amended): a deactivation chain's final resolved value is the answer of
the outermost guard-bearing resource of the path (true when no resource bears
the guard); a false returned by an inner step stands only when no outer step
bears the guard, since each later (outer) guard-bearing step overwrites the
running value with its own answer. -/
theorem C1_chain_final_value (path : DeactPath) :
    (checkCanDeactivatePath path).1 =
      (match path.find? (hasLifecycleHook "routerCanDeactivate") with
       | some c => c.canDeactivate.getD true
       | none => true) :=
  checkCanDeactivatePath_value path

/-- C2 counterexample: the guard of the removed component (id 1) is invoked
and resolves false, yet — because the outer root component's guard resolves
true and overrides the chain value — the whole reconciliation proceeds: an
unmount is performed and the accepted tree is swapped (its root loses its
child).  This refutes the claim that any guard resolving false prevents every
mount/unmount and leaves the accepted tree unchanged. -/
theorem C2_counterexample :
    exXVeto.canDeactivate = some false ∧
    Ev.guardCall 1 ∈ (navigate exRecogOk exEnv exOutletMap exRootTrue exState exUrl).events ∧
    Ev.unload 1 ∈ (navigate exRecogOk exEnv exOutletMap exRootTrue exState exUrl).events ∧
    (navigate exRecogOk exEnv exOutletMap exRootTrue exState
        exUrl).state.prevTree.root.children.length = 0 ∧
    exState.prevTree.root.children.length = 1 := by
  decide

/-- C2 (amended): if the deactivation check resolves false — i.e. some
deactivation path's final chain value is false, which is what the source
actually tests — then the navigation resolves without committing: no mount or
unmount event occurs anywhere, no change is emitted, and the accepted route
tree is unchanged. -/
theorem C2_veto_blocks_commit (renv : RouterEnv) (env : Env) (m : RouterOutletMap)
    (rc : Comp) (st : RouterState) (url : UrlTree) (ct : RouteTree)
    (hrec : renv.recognize url = .ok ct)
    (herr : (load env ct (some st.prevTree) m rc).err = none)
    (hres : (load env ct (some st.prevTree) m rc).res = false) :
    (navigate renv env m rc st url).result = .resolved ∧
    (navigate renv env m rc st url).state.prevTree = st.prevTree ∧
    (navigate renv env m rc st url).emitted = false ∧
    ∀ e ∈ (navigate renv env m rc st url).events, e.isMutation = false := by
  rw [navigate_eq_ok renv env m rc st url ct hrec]
  simp only [herr, hres, Bool.false_eq_true, if_false, true_and]
  exact load_not_committed_events env ct (some st.prevTree) m rc herr hres

/-- C2 witness: a navigation where the sole deactivation path resolves false
(the root bears no guard, the removed component vetoes); the theorem's
hypotheses hold by computation and the veto leaves everything unmutated. -/
theorem C2_witness :
    exRecogOk.recognize exUrl = Except.ok exCurrTree ∧
    (load exEnv exCurrTree (some exState.prevTree) exOutletMap exRootPlain).err = none ∧
    (load exEnv exCurrTree (some exState.prevTree) exOutletMap exRootPlain).res = false ∧
    ((navigate exRecogOk exEnv exOutletMap exRootPlain exState exUrl).result = .resolved ∧
     (navigate exRecogOk exEnv exOutletMap exRootPlain exState exUrl).state.prevTree =
       exState.prevTree ∧
     (navigate exRecogOk exEnv exOutletMap exRootPlain exState exUrl).emitted = false ∧
     ∀ e ∈ (navigate exRecogOk exEnv exOutletMap exRootPlain exState exUrl).events,
       e.isMutation = false) :=
  ⟨rfl, rfl, rfl,
   C2_veto_blocks_commit exRecogOk exEnv exOutletMap exRootPlain exState exUrl exCurrTree
     rfl rfl rfl⟩

/-- C3 counterexample: re-navigating to an address that recognizes to the very
tree currently accepted performs no mounts or unmounts, but a change
notification IS emitted (`load` resolves true whenever every deactivation path
consents — also when there were no changes at all — and `_navigate` then
swaps the tree and emits).  This refutes the "no change notification" part of
the claim. -/
theorem C3_counterexample :
    (navigate exRecogSame exEnv exOutletMap exRootPlain exState exUrl).events = [] ∧
    (navigate exRecogSame exEnv exOutletMap exRootPlain exState exUrl).emitted = true := by
  decide

/-- C3 (amended): when recognition reproduces the accepted tree and the
registry is congruent with it, re-navigation performs no mounts, unmounts,
path collections or guard calls (the event trace is empty) and the accepted
tree is unchanged — but the navigation still counts as `updated`: it emits a
change notification. -/
theorem C3_idempotent_renavigation (renv : RouterEnv) (env : Env) (m : RouterOutletMap)
    (rc : Comp) (st : RouterState) (url : UrlTree)
    (hrec : renv.recognize url = .ok st.prevTree)
    (hcong : congruentB st.prevTree.root m = true) :
    (navigate renv env m rc st url).result = .resolved ∧
    (navigate renv env m rc st url).events = [] ∧
    (navigate renv env m rc st url).state.prevTree = st.prevTree ∧
    (navigate renv env m rc st url).emitted = true := by
  rw [navigate_eq_ok renv env m rc st url st.prevTree hrec]
  rw [load_congr env st.prevTree m rc hcong]
  exact ⟨rfl, rfl, rfl, rfl⟩

/-- C3 witness: re-navigating the example state to its own tree. -/
theorem C3_witness :
    exRecogSame.recognize exUrl = Except.ok exState.prevTree ∧
    congruentB exState.prevTree.root exOutletMap = true ∧
    ((navigate exRecogSame exEnv exOutletMap exRootPlain exState exUrl).result = .resolved ∧
     (navigate exRecogSame exEnv exOutletMap exRootPlain exState exUrl).events = [] ∧
     (navigate exRecogSame exEnv exOutletMap exRootPlain exState exUrl).state.prevTree =
       exState.prevTree ∧
     (navigate exRecogSame exEnv exOutletMap exRootPlain exState exUrl).emitted = true) :=
  ⟨rfl, by decide,
   C3_idempotent_renavigation exRecogSame exEnv exOutletMap exRootPlain exState exUrl rfl
     (by decide)⟩

/-- C4 counterexample: a vetoed navigation resolves (no rejection) and changes
no route tree, but the url tree accessor is NOT unchanged: `_navigate` assigns
`this._urlTree = url` before recognition, so after the veto it reports the
attempted url (id 1) instead of the previous one (id 0).  This refutes the
"url tree … unchanged" part of the claim. -/
theorem C4_counterexample :
    (navigate exRecogOk exEnv exOutletMap exRootPlain exState exUrl).result = .resolved ∧
    (navigate exRecogOk exEnv exOutletMap exRootPlain exState exUrl).emitted = false ∧
    exState.urlTree = some ⟨0⟩ ∧
    (navigate exRecogOk exEnv exOutletMap exRootPlain exState exUrl).state.urlTree =
      some ⟨1⟩ := by
  decide

/-- C4 (amended): when a deactivation check resolves false the promise
returned by navigate resolves — it never rejects, and no exception escapes —
with no value (the source's promise is `Promise<void>`; the boolean false is
consumed internally and not surfaced).  The route tree is unchanged and no
change is emitted, but the url tree accessor reflects the attempted url,
which is stored before recognition. -/
theorem C4_veto_resolved (renv : RouterEnv) (env : Env) (m : RouterOutletMap)
    (rc : Comp) (st : RouterState) (url : UrlTree) (ct : RouteTree)
    (hrec : renv.recognize url = .ok ct)
    (herr : (load env ct (some st.prevTree) m rc).err = none)
    (hres : (load env ct (some st.prevTree) m rc).res = false) :
    (navigate renv env m rc st url).result = .resolved ∧
    (navigate renv env m rc st url).state.prevTree = st.prevTree ∧
    (navigate renv env m rc st url).state.urlTree = some url ∧
    (navigate renv env m rc st url).emitted = false := by
  rw [navigate_eq_ok renv env m rc st url ct hrec]
  simp only [herr, hres, Bool.false_eq_true, if_false]
  exact ⟨trivial, trivial, trivial, trivial⟩

/-- C4 witness: the vetoed example navigation. -/
theorem C4_witness :
    exRecogOk.recognize exUrl = Except.ok exCurrTree ∧
    (load exEnv exCurrTree (some exState.prevTree) exOutletMap exRootPlain).err = none ∧
    (load exEnv exCurrTree (some exState.prevTree) exOutletMap exRootPlain).res = false ∧
    ((navigate exRecogOk exEnv exOutletMap exRootPlain exState exUrl).result = .resolved ∧
     (navigate exRecogOk exEnv exOutletMap exRootPlain exState exUrl).state.prevTree =
       exState.prevTree ∧
     (navigate exRecogOk exEnv exOutletMap exRootPlain exState exUrl).state.urlTree =
       some exUrl ∧
     (navigate exRecogOk exEnv exOutletMap exRootPlain exState exUrl).emitted = false) :=
  ⟨rfl, rfl, rfl,
   C4_veto_resolved exRecogOk exEnv exOutletMap exRootPlain exState exUrl exCurrTree
     rfl rfl rfl⟩

/-- C5 counterexample: a failed recognition rejects the navigation and mutates
nothing and emits nothing — but the url tree accessor changes (id 0 to id 1),
because `_navigate` stores the candidate url before calling the recognizer.
This refutes the "url tree … exactly as before" part of the claim. -/
theorem C5_counterexample :
    (navigate exRecogFail exEnv exOutletMap exRootPlain exState exUrl).result =
      .rejected "no match" ∧
    (navigate exRecogFail exEnv exOutletMap exRootPlain exState exUrl).events = [] ∧
    exState.urlTree = some ⟨0⟩ ∧
    (navigate exRecogFail exEnv exOutletMap exRootPlain exState exUrl).state.urlTree =
      some ⟨1⟩ := by
  decide

/-- C5 (amended): when recognition fails, the navigation rejects with that
failure; the route tree is untouched, no traversal runs (the event trace is
empty, so the mounted resources are untouched) and nothing is emitted — but
the url tree accessor is set to the attempted url. -/
theorem C5_recognition_failure (renv : RouterEnv) (env : Env) (m : RouterOutletMap)
    (rc : Comp) (st : RouterState) (url : UrlTree) (msg : String)
    (hrec : renv.recognize url = .error msg) :
    navigate renv env m rc st url =
      ⟨.rejected msg, ⟨st.prevTree, some url⟩, [], false⟩ :=
  navigate_eq_err renv env m rc st url msg hrec

/-- C5 witness: the failing-recognizer example navigation. -/
theorem C5_witness :
    exRecogFail.recognize exUrl = Except.error "no match" ∧
    navigate exRecogFail exEnv exOutletMap exRootPlain exState exUrl =
      ⟨.rejected "no match", ⟨exState.prevTree, some exUrl⟩, [], false⟩ :=
  ⟨rfl,
   C5_recognition_failure exRecogFail exEnv exOutletMap exRootPlain exState exUrl
     "no match" rfl⟩

/-- C6 counterexample: a removed subtree whose root resource (id 5) holds a
nested mounted resource (id 7), unloaded beneath the ancestor chain `[0]`.
The descendant produces the path `[0, 7]`, which does NOT contain the
intermediate removed resource 5; the claimed complete chain `[0, 5, 7]` is
not among the collected paths.  This refutes the claim that a descendant's
path includes every intermediate mounted resource of the removed subtree. -/
theorem C6_counterexample :
    (unloadOutlet false
        (some (.mk true ⟨5, none, false⟩ [("d", .mk true ⟨7, none, false⟩ [])]))
        [⟨0, none, false⟩]).1 =
      [[⟨0, none, false⟩, ⟨7, none, false⟩], [⟨0, none, false⟩, ⟨5, none, false⟩]] ∧
    [⟨0, none, false⟩, ⟨5, none, false⟩, ⟨7, none, false⟩] ∉
      (unloadOutlet false
        (some (.mk true ⟨5, none, false⟩ [("d", .mk true ⟨7, none, false⟩ [])]))
        [⟨0, none, false⟩]).1 := by
  decide

/-- C6 (amended): every mounted resource of a removed subtree produces its own
deactivation path, visited nested-outlets-first (a descendant's path precedes
its ancestor's), and each path is the ancestor chain from OUTSIDE the removed
subtree followed by that one resource alone: the recursion passes the same
`components` chain to nested outlets, so intermediate mounted resources of the
removed subtree are not included in their descendants' paths. -/
theorem C6_deactivation_paths (o : RouterOutlet) (comps : List Comp) :
    (unloadOutlet false (some o) comps).1 =
      (deactivatedComps o).map (fun c => comps ++ [c]) := by
  rw [unloadOutlet, unloadOutletCore_false_eq]

/-- C7: within one deactivation path the guards are invoked sequentially from
the innermost (last) resource to the outermost (first): the invocation trace
is the reversed path filtered to the guard-bearing resources; in particular
for a path `[outer, mid, inner]` whose members all bear the guard the
invocation order is inner, mid, outer. -/
theorem C7_guard_order :
    (∀ path : DeactPath,
      (checkCanDeactivatePath path).2 =
        (path.reverse.filter (hasLifecycleHook "routerCanDeactivate")).map
          (fun c => Ev.guardCall c.id)) ∧
    ∀ (i j k : Nat) (a b c u v w : Bool),
      (checkCanDeactivatePath [⟨i, some a, u⟩, ⟨j, some b, v⟩, ⟨k, some c, w⟩]).2 =
        [Ev.guardCall k, Ev.guardCall j, Ev.guardCall i] := by
  refine ⟨checkCanDeactivatePath_events, fun i j k a b c u v w => ?_⟩
  rfl

/-- C8: one reconciliation is strictly two-phase.  The event trace of `load`
splits into a prefix with no mount, unmount or activation (the dry run
collects deactivation paths with mutation disabled, then the guard chains
resolve) followed by a suffix with no guard invocation and no path collection
(the commit pass, reached only after every collected path's chain has
resolved). -/
theorem C8_two_phase (env : Env) (ct : RouteTree) (pt : Option RouteTree)
    (m : RouterOutletMap) (rc : Comp) :
    ∃ g mm, (load env ct pt m rc).events = g ++ mm ∧
      (∀ e ∈ g, e.isMutation = false) ∧
      (∀ e ∈ mm, e.isGuardCall = false ∧ e.isCollect = false) := by
  rcases hcd : (canDeactivate env (rootNode ct) (pt.map rootNode) m rc).err with _ | msg
  · rcases hres : (canDeactivate env (rootNode ct) (pt.map rootNode) m rc).res with _ | _
    · refine ⟨(load env ct pt m rc).events, [], by simp, ?_, by simp⟩
      rw [load_eq_of_res_false env ct pt m rc hcd hres]
      intro e he
      rcases canDeactivate_events_classified env _ _ m rc e he with h | h
      · exact Ev.notMutation_of_isCollect e h
      · exact Ev.notMutation_of_isGuardCall e h
    · rw [load_eq_of_res_true env ct pt m rc hcd hres]
      refine ⟨(canDeactivate env (rootNode ct) (pt.map rootNode) m rc).events,
        (loadChildSegments env true (rootNode ct) (pt.map rootNode) m [rc]).events, rfl,
        ?_, ?_⟩
      · intro e he
        rcases canDeactivate_events_classified env _ _ m rc e he with h | h
        · exact Ev.notMutation_of_isCollect e h
        · exact Ev.notMutation_of_isGuardCall e h
      · intro e he
        exact Ev.not_guard_collect_of_isMutation e
          (loadChildSegments_true_events env _ _ m [rc] e he)
  · refine ⟨(load env ct pt m rc).events, [], by simp, ?_, by simp⟩
    rw [load_eq_of_err env ct pt m rc msg hcd]
    intro e he
    rcases canDeactivate_events_classified env _ _ m rc e he with h | h
    · exact Ev.notMutation_of_isCollect e h
    · exact Ev.notMutation_of_isGuardCall e h

/-- C9: when a candidate child of the root names an outlet with no
registration in the registry, the navigation is fatal: the thrown structural
error surfaces as a rejected navigation (not a resolved-but-unsuccessful
one), nothing is emitted and the accepted tree is unchanged. -/
theorem C9_missing_outlet_fatal (renv : RouterEnv) (env : Env) (m : RouterOutletMap)
    (rc : Comp) (st : RouterState) (url : UrlTree) (ct : RouteTree) (c : TreeNode)
    (hrec : renv.recognize url = .ok ct)
    (hc : c ∈ (rootNode ct).children)
    (hm : mapLookup m c.value.outlet = none) :
    (∃ msg, (navigate renv env m rc st url).result = NavResult.rejected msg) ∧
    (navigate renv env m rc st url).state.prevTree = st.prevTree ∧
    (navigate renv env m rc st url).emitted = false := by
  have hdry : (loadChildSegments env false (rootNode ct) (some (rootNode st.prevTree))
      m [rc]).err.isSome = true := by
    rw [loadChildSegments]
    exact loadChildrenCore_missing_err env (rootNode ct).children _ m [rc] c hc hm
  obtain ⟨msg, hmsg⟩ := Option.isSome_iff_exists.mp hdry
  have hcd := canDeactivate_err_of_dry env (rootNode ct) (some (rootNode st.prevTree))
    m rc msg hmsg
  have hload : (load env ct (some st.prevTree) m rc).err = some msg := by
    rw [load_eq_of_err env ct (some st.prevTree) m rc msg hcd]
    exact hcd
  rw [navigate_eq_ok renv env m rc st url ct hrec]
  simp only [hload]
  exact ⟨⟨msg, rfl⟩, trivial, trivial⟩

/-- C9 witness: navigating the example state to the candidate tree whose
child names the unregistered outlet "missing". -/
theorem C9_witness :
    exRecogBad.recognize exUrl = Except.ok exCurrBad ∧
    mapLookup exOutletMap (TreeNode.mk exSegY []).value.outlet = none ∧
    ((∃ msg, (navigate exRecogBad exEnv exOutletMap exRootPlain exState exUrl).result =
        NavResult.rejected msg) ∧
     (navigate exRecogBad exEnv exOutletMap exRootPlain exState exUrl).state.prevTree =
       exState.prevTree ∧
     (navigate exRecogBad exEnv exOutletMap exRootPlain exState exUrl).emitted = false) :=
  ⟨rfl, rfl,
   C9_missing_outlet_fatal exRecogBad exEnv exOutletMap exRootPlain exState exUrl exCurrBad
     (TreeNode.mk exSegY []) rfl (List.mem_singleton_self _) rfl⟩

/-- C10: `unloadOutlet` on a previous-tree entry whose outlet is absent from
the parent registry, or whose outlet has nothing mounted, is a complete no-op
in both the dry run and the commit pass: no deactivation path is collected
(so no guard is ever consulted for it or its descendants) and no event — in
particular no unload — is performed. -/
theorem C10_skip_missing_or_unloaded (pm : Bool) (comps : List Comp) :
    unloadOutlet pm none comps = ([], []) ∧
    ∀ (c : Comp) (os : List (String × RouterOutlet)),
      unloadOutlet pm (some (.mk false c os)) comps = ([], []) := by
  refine ⟨rfl, fun c os => ?_⟩
  rw [unloadOutlet, unloadOutletCore]
  simp

end NgRouter
